import Mathlib

/-!
Shallow embedding of the Codenote save-synchronization engine.

Server side (src/server/api.ts, src/db/schema.ts): document records with an
optimistic-concurrency revision counter, a compare-and-swap PATCH update, and
a coarse snapshot policy running after each successful write.

Client side (the ProjectView save scheduler): debounced flushes, a local draft
store, a pending-save flag, and the conflict-resolution handlers.

Database effects are modelled by explicit state passing; `Date.now()` and
`crypto.randomUUID()` are modelled as explicit `now` / id parameters; a
fallible snapshot insert is modelled by an `insertOk` flag, with `Except Unit`
capturing a thrown exception.
-/

namespace Codenote

/-- Document record, mirroring the `projects` table of `src/db/schema.ts`:
id, name, language, content, revision (integer, default 0), created/updated
timestamps (modelled as naturals, milliseconds). -/
structure Project where
  id : String
  name : String
  language : String
  content : String
  revision : Int
  createdAt : Nat
  updatedAt : Nat
deriving Repr, DecidableEq

/-- Snapshot record, mirroring the `project_snapshots` table of
`src/db/schema.ts`. -/
structure ProjectSnapshot where
  id : String
  projectId : String
  revision : Int
  content : String
  createdAt : Nat
deriving Repr, DecidableEq

/-- Server datastore: the two tables. Rows are kept as lists; the primary-key
constraint of the schema is carried as a `Nodup` hypothesis where needed. -/
structure ServerState where
  projects : List Project
  snapshots : List ProjectSnapshot
deriving Repr, DecidableEq

def DEFAULT_LANGUAGE : String := "typescript"

def DEFAULT_CONTENT : String := "// Start typing in Codenote\n"

def SNAPSHOT_INTERVAL_MS : Int := 30000

def SNAPSHOT_EVERY_N_REVISIONS : Int := 10

/-- HTTP response as the API handler produces it: a JSON project body with a
status code, or a plain-text body with a status code. -/
inductive ApiResponse where
  | json (status : Nat) (body : Project)
  | text (status : Nat) (msg : String)
deriving Repr, DecidableEq

/-- PATCH body after the handler's `typeof` checks: `content` is `some` when
the field is a string, `name` is `some` when the field is a string,
`baseRevision` is `some` when the field is an integer number. -/
structure PatchBody where
  content : Option String
  name : Option String
  baseRevision : Option Int
deriving Repr, DecidableEq

/-- POST body for project creation: `name` is `some` when a string was sent. -/
structure CreateBody where
  name : Option String
deriving Repr, DecidableEq

/-- JS `String.prototype.trim()`: drop whitespace from both ends of the
string (modelled by structural recursion on the character list so that it
evaluates; Unicode whitespace beyond ASCII is out of scope). -/
def jsTrim (s : String) : String :=
  ⟨((s.data.dropWhile Char.isWhitespace).reverse.dropWhile
    Char.isWhitespace).reverse⟩

/-- Timestamp of the most recent snapshot of a project:
`select({createdAt}).where(projectId = ...).orderBy(desc(createdAt)).limit(1)`
selects only `createdAt`, so it is the maximum `createdAt` among the
project's snapshots (none when there is no snapshot). -/
def latestSnapshotCreatedAt (st : ServerState) (projectId : String) : Option Nat :=
  ((st.snapshots.filter (fun s => s.projectId == projectId)).map
    (fun s => s.createdAt)).max?

/-- Snapshot condition of `maybeSnapshot`: no prior snapshot, or
`now - lastSnapshotAt >= SNAPSHOT_INTERVAL_MS`, or
`revision % SNAPSHOT_EVERY_N_REVISIONS === 0` (JS `%` truncates, hence
`Int.tmod`). `lastSnapshotAt` is `0` when there is no prior snapshot. -/
def shouldSnapshot (latest : Option Nat) (now : Nat) (revision : Int) : Bool :=
  latest.isNone ||
    decide ((now : Int) - ((latest.getD 0 : Nat) : Int) ≥ SNAPSHOT_INTERVAL_MS) ||
    (revision.tmod SNAPSHOT_EVERY_N_REVISIONS == 0)

/-- Embedding of `maybeSnapshot` (src/server/api.ts:19-42): fetch the latest
snapshot time, and insert a new snapshot row when the condition holds.
`insertOk` models whether the database insert succeeds; a failed insert is a
thrown exception, `Except.error ()`. When no insert is attempted nothing can
fail. -/
def maybeSnapshot (st : ServerState) (projectId : String) (revision : Int)
    (content : String) (now : Nat) (snapId : String) (insertOk : Bool) :
    Except Unit ServerState :=
  if shouldSnapshot (latestSnapshotCreatedAt st projectId) now revision then
    if insertOk then
      .ok { st with snapshots :=
        st.snapshots ++ [⟨snapId, projectId, revision, content, now⟩] }
    else .error ()
  else .ok st

/-- Embedding of `POST /api/projects` (src/server/api.ts:217-235): name
defaults to `"Untitled Project"` unless a non-empty trimmed string was sent;
language and content take the defaults, revision starts at 0. `newId` models
`crypto.randomUUID()`; `now` models the `defaultNow()` timestamps. -/
def createProject (st : ServerState) (body : CreateBody) (newId : String)
    (now : Nat) : ServerState × ApiResponse :=
  let name :=
    match body.name with
    | some n => if jsTrim n ≠ "" then jsTrim n else "Untitled Project"
    | none => "Untitled Project"
  let inserted : Project :=
    { id := newId, name := name, language := DEFAULT_LANGUAGE,
      content := DEFAULT_CONTENT, revision := 0, createdAt := now,
      updatedAt := now }
  ({ st with projects := st.projects ++ [inserted] }, .json 201 inserted)

/-- First project row with the given id
(`select().from(projects).where(eq(projects.id, id))`, taking `[project]`). -/
def findProject (st : ServerState) (id : String) : Option Project :=
  st.projects.find? (fun p => p.id == id)

/-- Embedding of `GET /api/projects/:id` (src/server/api.ts:238-246). -/
def getProject (st : ServerState) (id : String) : ApiResponse :=
  match findProject st id with
  | none => .text 404 "Not Found"
  | some p => .json 200 p

/-- Row predicate of the conditional update:
`and(eq(projects.id, id), eq(projects.revision, baseRevision))`. -/
def patchMatches (id : String) (baseRevision : Int) (p : Project) : Bool :=
  p.id == id && p.revision == baseRevision

/-- Values set by the update (src/server/api.ts:266-279): content,
`revision = baseRevision + 1`, `updatedAt = now`, and the (already trimmed)
name when one was provided. -/
def applyPatchValues (content : String) (name : Option String)
    (baseRevision : Int) (now : Nat) (p : Project) : Project :=
  { p with content := content, revision := baseRevision + 1, updatedAt := now,
           name := name.getD p.name }

/-- Embedding of `PATCH /api/projects/:id` (src/server/api.ts:249-299).
Missing/non-string content or missing/non-integer baseRevision gives 400.
The conditional update rewrites every row matching (id, baseRevision) and
returns the first updated row; when no row matched, the current record is
re-fetched and returned with 409 (404 when the id is absent). After a
successful update, `maybeSnapshot` runs; if its insert throws, the exception
propagates (`Except.error`) while the update stays persisted in the state. -/
def patchProject (st : ServerState) (id : String) (body : PatchBody)
    (now : Nat) (snapId : String) (insertOk : Bool) :
    ServerState × Except Unit ApiResponse :=
  let name := body.name.map jsTrim
  match body.content, body.baseRevision with
  | some content, some baseRevision =>
    let updatedRows :=
      (st.projects.filter (patchMatches id baseRevision)).map
        (applyPatchValues content name baseRevision now)
    match updatedRows.head? with
    | none =>
      match findProject st id with
      | none => (st, .ok (.text 404 "Not Found"))
      | some current => (st, .ok (.json 409 current))
    | some updated =>
      let st1 : ServerState :=
        { st with projects :=
            st.projects.map (fun p =>
              if patchMatches id baseRevision p then
                applyPatchValues content name baseRevision now p
              else p) }
      match maybeSnapshot st1 id updated.revision updated.content now snapId
          insertOk with
      | .ok st2 => (st2, .ok (.json 200 updated))
      | .error _ => (st1, .error ())
  | _, _ => (st, .ok (.text 400 "content and baseRevision are required"))

/-- Embedding of the `Deno.serve` wrapper around the PATCH route
(src/server/api.ts `Deno.serve` handler): an exception thrown by the API
handler is caught and turned into a 500 plain-text response; the state the
handler had already committed is kept. -/
def servePatch (st : ServerState) (id : String) (body : PatchBody)
    (now : Nat) (snapId : String) (insertOk : Bool) :
    ServerState × ApiResponse :=
  match patchProject st id body now snapId insertOk with
  | (st1, .ok r) => (st1, r)
  | (st1, .error _) => (st1, .text 500 "Internal Server Error")

/-- Well-formedness carried over from the schema's primary-key constraint:
project ids are pairwise distinct. -/
@[reducible] def WFServer (st : ServerState) : Prop :=
  (st.projects.map Project.id).Nodup

/-- One state-changing API request: a create (with a fresh id, as supplied by
`crypto.randomUUID()` under the primary-key constraint) or a PATCH. -/
inductive ServerStep : ServerState → ServerState → Prop where
  | create (st : ServerState) (body : CreateBody) (newId : String) (now : Nat)
      (hfresh : newId ∉ st.projects.map Project.id) :
      ServerStep st (createProject st body newId now).1
  | patch (st : ServerState) (id : String) (body : PatchBody) (now : Nat)
      (snapId : String) (insertOk : Bool) :
      ServerStep st (patchProject st id body now snapId insertOk).1

/-- Reflexive-transitive closure of `ServerStep`: the states the server can
reach from a given state through any sequence of API requests. -/
inductive ServerReaches : ServerState → ServerState → Prop where
  | refl (st : ServerState) : ServerReaches st st
  | tail {a b c : ServerState} : ServerReaches a b → ServerStep b c →
      ServerReaches a c

/-- Local draft record (src/unnamed/part_003 / drafts store):
`{projectId, content, name, updatedAt, baseRevision}`. The ISO timestamp is
modelled as the parsed time in milliseconds. -/
structure DraftRecord where
  projectId : String
  content : String
  name : String
  updatedAt : Nat
  baseRevision : Int
deriving Repr, DecidableEq

/-- Visible save state of `ProjectView`: `"idle" | "saving" | "error" |
"conflict"`. -/
inductive SaveStatus where
  | idle
  | saving
  | error
  | conflict
deriving Repr, DecidableEq

/-- Client scheduler session state for one open document: the React state
(`value`, `name`), the mutable refs of `ProjectView`, and the local draft
store entry for this document (none when absent). -/
structure SchedulerState where
  value : String
  name : String
  latestValue : String
  latestName : String
  baseRevision : Int
  lastSaved : String
  lastSavedName : String
  projectId : String
  saving : Bool
  pendingSave : Bool
  conflictRef : Option Project
  conflictProject : Option Project
  restoreDraft : Option DraftRecord
  saveState : SaveStatus
  draftStore : Option DraftRecord
deriving Repr, DecidableEq

/-- Request body a flush sends:
`{content, baseRevision, name}` (src/unnamed/part_002:196-204). -/
structure FlushRequest where
  content : String
  name : String
  baseRevision : Int
deriving Repr, DecidableEq

/-- Outcome of an in-flight flush as seen by the client: a 200 body, a 409
body, or any other failure (non-ok status or thrown fetch). -/
inductive FlushOutcome where
  | success (updated : Project)
  | conflict (latest : Project)
  | failure
deriving Repr, DecidableEq

/-- Start of `flush` (src/unnamed/part_002:176-204), up to issuing the
request: no-op when in conflict, when a flush is already in flight, or when
both content and name equal the saved baselines; otherwise mark saving,
clear the pending flag, and send `{content, name, baseRevision}`. -/
def flushStart (s : SchedulerState) : SchedulerState × Option FlushRequest :=
  if s.conflictRef.isSome then (s, none)
  else if s.saving then (s, none)
  else if s.latestValue == s.lastSaved && s.latestName == s.lastSavedName then
    (s, none)
  else
    ({ s with saving := true, pendingSave := false, saveState := .saving },
     some ⟨s.latestValue, s.latestName, s.baseRevision⟩)

/-- Completion of `flush` (src/unnamed/part_002:206-246): response handling,
then the `finally` block. Returns the new state and whether a follow-up save
was scheduled (`scheduleSaveRef.current()` invoked). On success the baselines
adopt the response's revision/content/name and the draft is cleared when the
buffer already matches, else rewritten from the buffer; on 409 the conflict
state is entered; on failure the state becomes `error`. The `finally` block
clears the in-flight flag and schedules one follow-up save exactly when the
pending flag is set and no conflict was recorded. -/
def flushComplete (s : SchedulerState) (o : FlushOutcome) (now : Nat) :
    SchedulerState × Bool :=
  let s1 :=
    match o with
    | .success updated =>
      let s' := { s with baseRevision := updated.revision,
                         lastSaved := updated.content,
                         lastSavedName := updated.name,
                         saveState := .idle }
      if s.latestValue == updated.content && s.latestName == updated.name then
        { s' with draftStore := none }
      else
        { s' with draftStore := some ⟨s.projectId, s.latestValue, s.latestName,
            now, updated.revision⟩ }
    | .conflict latest =>
      { s with conflictRef := some latest, conflictProject := some latest,
               saveState := .conflict }
    | .failure => { s with saveState := .error }
  let s2 := { s1 with saving := false }
  (s2, s2.pendingSave && s2.conflictRef.isNone)

/-- Buffer mutation effect (src/unnamed/part_002:383-408): record the new
value/name as latest; when they equal the saved baselines, stop; otherwise
schedule a draft write, and then — in conflict do nothing more, during an
in-flight flush only set the pending flag, otherwise schedule a server save.
The returned Bool tells whether `scheduleServerSave` was invoked. -/
def mutate (s : SchedulerState) (v n : String) (now : Nat) :
    SchedulerState × Bool :=
  let s1 := { s with value := v, name := n, latestValue := v, latestName := n }
  if v == s.lastSaved && n == s.lastSavedName then (s1, false)
  else
    let s2 := { s1 with
      draftStore := some ⟨s.projectId, v, n, now, s.baseRevision⟩ }
    if s.conflictRef.isSome then (s2, false)
    else if s.saving then ({ s2 with pendingSave := true }, false)
    else (s2, true)

/-- Embedding of `handleRestore` (src/unnamed/part_002:435-442): when a draft
is offered, the buffer and the latest refs adopt the draft's content and
name and the offer is cleared. -/
def handleRestore (s : SchedulerState) : SchedulerState :=
  match s.restoreDraft with
  | none => s
  | some d =>
    { s with value := d.content, latestValue := d.content,
             name := d.name, latestName := d.name, restoreDraft := none }

/-- Embedding of `handleReloadFromServer` (src/unnamed/part_002:450-463):
adopt the conflicting server record's content/name/revision as buffer and
baselines, clear the conflict, return to idle, and delete the local draft. -/
def handleReloadFromServer (s : SchedulerState) : SchedulerState :=
  match s.conflictProject with
  | none => s
  | some cp =>
    { s with conflictRef := none, baseRevision := cp.revision,
             lastSaved := cp.content, lastSavedName := cp.name,
             latestValue := cp.content, latestName := cp.name,
             value := cp.content, name := cp.name,
             conflictProject := none, saveState := .idle,
             draftStore := none }

/-- Embedding of `handleOverwriteServer` (src/unnamed/part_002:465-472):
clear the conflict, adopt the server record's revision as the new
`baseRevision`, return to idle, and call `flush` again (its request, if
any, is returned). -/
def handleOverwriteServer (s : SchedulerState) :
    SchedulerState × Option FlushRequest :=
  match s.conflictProject with
  | none => (s, none)
  | some cp =>
    flushStart { s with conflictRef := none, baseRevision := cp.revision,
                        conflictProject := none, saveState := .idle }

/-- Client configuration for temporal reasoning: the scheduler state plus the
number of flush requests currently in flight. -/
structure ClientConfig where
  sched : SchedulerState
  inFlight : Nat
deriving Repr, DecidableEq

/-- One client event: a buffer mutation, a flush trigger firing (debounce,
max-interval, blur, pagehide, unmount, retry), the completion of an in-flight
flush, or one of the conflict-resolution / draft handlers. A completion
event can only occur while a flush is in flight (`saving = true`). -/
inductive ClientStep : ClientConfig → ClientConfig → Prop where
  | mutate (c : ClientConfig) (v n : String) (now : Nat) :
      ClientStep c ⟨(mutate c.sched v n now).1, c.inFlight⟩
  | tryFlush (c : ClientConfig) :
      ClientStep c ⟨(flushStart c.sched).1,
        c.inFlight + ((flushStart c.sched).2.map (fun _ => 1)).getD 0⟩
  | complete (c : ClientConfig) (o : FlushOutcome) (now : Nat)
      (hsaving : c.sched.saving = true) :
      ClientStep c ⟨(flushComplete c.sched o now).1, c.inFlight - 1⟩
  | restore (c : ClientConfig) :
      ClientStep c ⟨handleRestore c.sched, c.inFlight⟩
  | reload (c : ClientConfig) :
      ClientStep c ⟨handleReloadFromServer c.sched, c.inFlight⟩
  | overwrite (c : ClientConfig) :
      ClientStep c ⟨(handleOverwriteServer c.sched).1,
        c.inFlight + ((handleOverwriteServer c.sched).2.map
          (fun _ => 1)).getD 0⟩

/-- Initial scheduler state for a freshly loaded project
(src/unnamed/part_002:273-288): buffer and baselines from the server record,
no conflict, nothing in flight, nothing pending. -/
def initScheduler (p : Project) (draft : Option DraftRecord) : SchedulerState :=
  { value := p.content, name := p.name, latestValue := p.content,
    latestName := p.name, baseRevision := p.revision, lastSaved := p.content,
    lastSavedName := p.name, projectId := p.id, saving := false,
    pendingSave := false, conflictRef := none, conflictProject := none,
    restoreDraft := none, saveState := .idle, draftStore := draft }

/-- Reflexive-transitive closure of `ClientStep`. -/
inductive ClientReaches : ClientConfig → ClientConfig → Prop where
  | refl (c : ClientConfig) : ClientReaches c c
  | tail {a b c : ClientConfig} : ClientReaches a b → ClientStep b c →
      ClientReaches a c

/-- Decidable form of a successful compare-and-swap for `(id, baseRevision)`:
the conditional update would match a row, i.e. the write would succeed. -/
def patchApplies (st : ServerState) (id : String) (b : Int) : Bool :=
  (st.projects.find? (patchMatches id b)).isSome

theorem head?_filter {α : Type} (p : α → Bool) (l : List α) :
    (l.filter p).head? = l.find? p := by
  induction l with
  | nil => rfl
  | cons x xs ih =>
    by_cases h : p x
    · simp [List.filter_cons, h, List.find?_cons_of_pos _ h]
    · rw [List.filter_cons, if_neg (by simpa using h),
        List.find?_cons_of_neg _ (by simpa using h)]
      exact ih

theorem applyPatchValues_id (c : String) (nm : Option String) (b : Int)
    (now : Nat) (p : Project) : (applyPatchValues c nm b now p).id = p.id := rfl

theorem findProject_patchTable (st : ServerState) (id pid : String)
    (c : String) (nm : Option String) (b : Int) (now : Nat) :
    (st.projects.map (fun p =>
        if patchMatches id b p then applyPatchValues c nm b now p else p)).find?
      (fun p => p.id == pid) =
    (st.projects.find? (fun p => p.id == pid)).map (fun p =>
      if patchMatches id b p then applyPatchValues c nm b now p else p) := by
  rw [List.find?_map]
  have hpred : ((fun p : Project => p.id == pid) ∘ (fun p =>
      if patchMatches id b p then applyPatchValues c nm b now p else p)) =
      (fun p : Project => p.id == pid) := by
    funext p
    by_cases h : patchMatches id b p <;>
      simp [Function.comp, h, applyPatchValues]
  rw [hpred]

theorem find?_matches_eq (l : List Project) (id : String) (b : Int)
    (hnd : (l.map Project.id).Nodup) :
    l.find? (patchMatches id b) =
      (l.find? (fun q => q.id == id)).bind
        (fun q => if q.revision == b then some q else none) := by
  induction l with
  | nil => rfl
  | cons x xs ih =>
    simp only [List.map_cons, List.nodup_cons] at hnd
    obtain ⟨hx, hxs⟩ := hnd
    by_cases hid : x.id = id
    · by_cases hb : x.revision = b
      · simp [List.find?_cons, patchMatches, hid, hb]
      · have hnone : xs.find? (patchMatches id b) = none := by
          refine List.find?_eq_none.mpr ?_
          intro q hq hmq
          have hqid : q.id = id := by
            simp [patchMatches] at hmq
            exact hmq.1
          exact hx (List.mem_map.mpr ⟨q, hq, by rw [hqid, hid]⟩)
        simp [List.find?_cons, patchMatches, hid, hb, hnone]
    · simp [List.find?_cons, patchMatches, hid, ih hxs]

theorem maybeSnapshot_projects {st st2 : ServerState} {pid : String} {r : Int}
    {c : String} {now : Nat} {sid : String} {insertOk : Bool}
    (h : maybeSnapshot st pid r c now sid insertOk = .ok st2) :
    st2.projects = st.projects := by
  unfold maybeSnapshot at h
  split at h
  · split at h
    · injection h with h
      subst h
      rfl
    · simp at h
  · injection h with h
    subst h
    rfl

theorem maybeSnapshot_ok_of_insertOk (st : ServerState) (pid : String)
    (r : Int) (c : String) (now : Nat) (sid : String) :
    maybeSnapshot st pid r c now sid true =
      .ok (if shouldSnapshot (latestSnapshotCreatedAt st pid) now r then
        { st with snapshots := st.snapshots ++ [⟨sid, pid, r, c, now⟩] }
      else st) := by
  unfold maybeSnapshot
  split <;> simp_all

/-- Unfolding of `patchProject` on a well-typed body, with the updated-rows
head rewritten into a `find?` on the row predicate. -/
theorem patchProject_eq (st : ServerState) (id : String) (c : String)
    (nm : Option String) (b : Int) (now : Nat) (snapId : String)
    (insertOk : Bool) :
    patchProject st id ⟨some c, nm, some b⟩ now snapId insertOk =
      match st.projects.find? (patchMatches id b) with
      | none =>
        match findProject st id with
        | none => (st, .ok (.text 404 "Not Found"))
        | some current => (st, .ok (.json 409 current))
      | some q =>
        match maybeSnapshot
            { st with projects := st.projects.map (fun p =>
                if patchMatches id b p then
                  applyPatchValues c (nm.map jsTrim) b now p
                else p) } id
            (applyPatchValues c (nm.map jsTrim) b now q).revision
            (applyPatchValues c (nm.map jsTrim) b now q).content
            now snapId insertOk with
        | .ok st2 =>
          (st2, .ok (.json 200 (applyPatchValues c (nm.map jsTrim) b now q)))
        | .error _ =>
          ({ st with projects := st.projects.map (fun p =>
              if patchMatches id b p then
                applyPatchValues c (nm.map jsTrim) b now p
              else p) }, .error ()) := by
  unfold patchProject
  simp only
  rw [List.head?_map, head?_filter]
  cases hq : st.projects.find? (patchMatches id b) <;> rfl

theorem wf_step {st st' : ServerState} (h : ServerStep st st')
    (hwf : WFServer st) : WFServer st' := by
  cases h with
  | create body newId now hfresh =>
    have hmap : (createProject st body newId now).1.projects.map Project.id =
        st.projects.map Project.id ++ [newId] := by
      simp [createProject]
    unfold WFServer
    rw [hmap]
    refine List.Nodup.append hwf (List.nodup_singleton _) ?_
    intro a ha hb
    rw [List.mem_singleton] at hb
    subst hb
    exact hfresh ha
  | patch id body now snapId insertOk =>
    unfold WFServer at *
    obtain ⟨bc, bn, bb⟩ := body
    cases bc with
    | none => simpa [patchProject] using hwf
    | some c =>
      cases bb with
      | none => simpa [patchProject] using hwf
      | some b =>
        rw [patchProject_eq]
        cases hq : st.projects.find? (patchMatches id b) with
        | none =>
          cases hcur : findProject st id <;> simpa using hwf
        | some q =>
          have hmap : ∀ (st1 : ServerState),
              st1.projects = st.projects.map (fun p =>
                if patchMatches id b p then
                  applyPatchValues c (bn.map jsTrim) b now p
                else p) →
              (st1.projects.map Project.id).Nodup := by
            intro st1 h1
            rw [h1, List.map_map]
            have hpred : (Project.id ∘ (fun p =>
                if patchMatches id b p then
                  applyPatchValues c (bn.map jsTrim) b now p
                else p)) = Project.id := by
              funext p
              by_cases hm : patchMatches id b p <;>
                simp [Function.comp, hm, applyPatchValues]
            rw [hpred]
            exact hwf
          cases hms : maybeSnapshot
              { st with projects := st.projects.map (fun p =>
                  if patchMatches id b p then
                    applyPatchValues c (bn.map jsTrim) b now p
                  else p) } id
              (applyPatchValues c (bn.map jsTrim) b now q).revision
              (applyPatchValues c (bn.map jsTrim) b now q).content
              now snapId insertOk with
          | ok st2 =>
            simp only [hms]
            exact hmap st2 (by simpa using maybeSnapshot_projects hms)
          | error e =>
            simp only [hms]
            exact hmap { st with projects := st.projects.map (fun p =>
              if patchMatches id b p then
                applyPatchValues c (bn.map jsTrim) b now p
              else p) } rfl

theorem wf_reaches {st st' : ServerState} (h : ServerReaches st st')
    (hwf : WFServer st) : WFServer st' := by
  induction h with
  | refl => exact hwf
  | tail _ hstep ih => exact wf_step hstep ih

theorem patchProject_success_projects (st : ServerState) (id : String)
    (c : String) (nm : Option String) (b : Int) (now : Nat) (snapId : String)
    (insertOk : Bool) (q : Project)
    (hq : st.projects.find? (patchMatches id b) = some q) :
    ((patchProject st id ⟨some c, nm, some b⟩ now snapId insertOk).1).projects =
      st.projects.map (fun p => if patchMatches id b p then
        applyPatchValues c (nm.map jsTrim) b now p else p) := by
  simp only [patchProject_eq, hq]
  split
  · rename_i st2 hms
    exact maybeSnapshot_projects hms
  · rfl

theorem patchProject_projects_cases (st : ServerState) (id : String)
    (body : PatchBody) (now : Nat) (snapId : String) (insertOk : Bool) :
    ((patchProject st id body now snapId insertOk).1).projects = st.projects ∨
    ∃ c b, body.content = some c ∧ body.baseRevision = some b ∧
      ((patchProject st id body now snapId insertOk).1).projects =
        st.projects.map (fun p => if patchMatches id b p then
          applyPatchValues c (body.name.map jsTrim) b now p else p) := by
  obtain ⟨bc, bn, bb⟩ := body
  cases bc with
  | none => left; simp [patchProject]
  | some c =>
    cases bb with
    | none => left; simp [patchProject]
    | some b =>
      cases hq : st.projects.find? (patchMatches id b) with
      | none =>
        left
        rw [patchProject_eq, hq]
        cases hcur : findProject st id <;> rfl
      | some q =>
        right
        exact ⟨c, b, rfl, rfl,
          patchProject_success_projects st id c bn b now snapId insertOk q hq⟩

theorem findProject_mono_step {st st' : ServerState} (h : ServerStep st st')
    (pid : String) (p : Project) (hfind : findProject st pid = some p) :
    ∃ p', findProject st' pid = some p' ∧ p.revision ≤ p'.revision := by
  cases h with
  | create body newId now hfresh =>
    have key : ∀ (l : List Project) (x : Project),
        l.find? (fun q => q.id == pid) = some p →
        (l ++ [x]).find? (fun q => q.id == pid) = some p := by
      intro l x hl
      rw [List.find?_append, hl]
      rfl
    exact ⟨p, key _ _ hfind, le_refl _⟩
  | patch id body now snapId insertOk =>
    rcases patchProject_projects_cases st id body now snapId insertOk with
      hsame | ⟨c, b, hc, hb, hmap⟩
    · refine ⟨p, ?_, le_refl _⟩
      unfold findProject at hfind ⊢
      rw [hsame]
      exact hfind
    · unfold findProject at hfind ⊢
      rw [hmap, findProject_patchTable, hfind]
      by_cases hm : patchMatches id b p
      · refine ⟨applyPatchValues c (body.name.map jsTrim) b now p,
          by simp [hm], ?_⟩
        have hrb : p.revision = b := by
          simp [patchMatches] at hm
          exact hm.2
        simp only [applyPatchValues]
        omega
      · exact ⟨p, by simp [hm], le_refl _⟩

theorem findProject_mono_reaches {st st' : ServerState}
    (h : ServerReaches st st') (pid : String) (p : Project)
    (hfind : findProject st pid = some p) :
    ∃ p', findProject st' pid = some p' ∧ p.revision ≤ p'.revision := by
  induction h with
  | refl => exact ⟨p, hfind, le_refl _⟩
  | tail hreach hstep ih =>
    obtain ⟨q, hq, hle⟩ := ih
    obtain ⟨p', hp', hle'⟩ := findProject_mono_step hstep pid q hq
    exact ⟨p', hp', le_trans hle hle'⟩

theorem find?_matches_of_rev (st : ServerState) (id : String) (b : Int)
    (p : Project) (hwf : WFServer st) (hfind : findProject st id = some p)
    (hrev : p.revision = b) :
    st.projects.find? (patchMatches id b) = some p := by
  have hnd : (st.projects.map Project.id).Nodup := hwf
  rw [find?_matches_eq st.projects id b hnd]
  unfold findProject at hfind
  rw [hfind]
  simp [hrev]

theorem find?_matches_none_of_rev_ne (st : ServerState) (id : String) (b : Int)
    (p : Project) (hwf : WFServer st) (hfind : findProject st id = some p)
    (hrev : p.revision ≠ b) :
    st.projects.find? (patchMatches id b) = none := by
  have hnd : (st.projects.map Project.id).Nodup := hwf
  rw [find?_matches_eq st.projects id b hnd]
  unfold findProject at hfind
  rw [hfind]
  simp [hrev]

theorem patchProject_conflict_eq (st : ServerState) (id : String) (c : String)
    (nm : Option String) (b : Int) (now : Nat) (snapId : String)
    (insertOk : Bool) (p : Project) (hwf : WFServer st)
    (hfind : findProject st id = some p) (hrev : p.revision ≠ b) :
    patchProject st id ⟨some c, nm, some b⟩ now snapId insertOk =
      (st, .ok (.json 409 p)) := by
  have hnone := find?_matches_none_of_rev_ne st id b p hwf hfind hrev
  simp only [patchProject_eq, hnone, hfind]

theorem patchMatches_of_found (st : ServerState) (id : String) (b : Int)
    (p : Project) (hfind : findProject st id = some p)
    (hrev : p.revision = b) : patchMatches id b p = true := by
  have hpid : (p.id == id) = true := by
    have h0 := hfind
    unfold findProject at h0
    simpa using List.find?_some h0
  simp [patchMatches, hrev]
  simpa using hpid

theorem patchProject_success_find (st : ServerState) (id : String)
    (c : String) (nm : Option String) (b : Int) (now : Nat) (snapId : String)
    (insertOk : Bool) (p : Project) (hwf : WFServer st)
    (hfind : findProject st id = some p) (hrev : p.revision = b) :
    findProject (patchProject st id ⟨some c, nm, some b⟩ now snapId insertOk).1
        id = some (applyPatchValues c (nm.map jsTrim) b now p) := by
  have hfe := find?_matches_of_rev st id b p hwf hfind hrev
  have hm := patchMatches_of_found st id b p hfind hrev
  unfold findProject
  rw [patchProject_success_projects st id c nm b now snapId insertOk p hfe,
    findProject_patchTable]
  unfold findProject at hfind
  rw [hfind]
  simp [hm]

theorem patchProject_success_resp (st : ServerState) (id : String) (c : String)
    (nm : Option String) (b : Int) (now : Nat) (snapId : String) (p : Project)
    (hwf : WFServer st) (hfind : findProject st id = some p)
    (hrev : p.revision = b) :
    (patchProject st id ⟨some c, nm, some b⟩ now snapId true).2 =
      .ok (.json 200 (applyPatchValues c (nm.map jsTrim) b now p)) ∧
    findProject (patchProject st id ⟨some c, nm, some b⟩ now snapId true).1 id =
      some (applyPatchValues c (nm.map jsTrim) b now p) := by
  have hfe := find?_matches_of_rev st id b p hwf hfind hrev
  constructor
  · simp only [patchProject_eq, hfe]
    split
    · rfl
    · rename_i e hms
      rw [maybeSnapshot_ok_of_insertOk] at hms
      simp at hms
  · exact patchProject_success_find st id c nm b now snapId true p hwf hfind
      hrev

theorem shouldSnapshot_iff (latest : Option Nat) (now : Nat) (r : Int) :
    shouldSnapshot latest now r = true ↔
      (latest = none ∨ (now : Int) - ((latest.getD 0 : Nat) : Int) ≥ 30000 ∨
        (10 : Int) ∣ r) := by
  unfold shouldSnapshot SNAPSHOT_INTERVAL_MS SNAPSHOT_EVERY_N_REVISIONS
  simp [Bool.or_eq_true, Option.isNone_iff_eq_none, decide_eq_true_iff,
    ← Int.dvd_iff_tmod_eq_zero, or_assoc]

theorem patchProject_success_snapshots (st : ServerState) (id : String)
    (c : String) (nm : Option String) (b : Int) (now : Nat) (snapId : String)
    (p : Project) (hwf : WFServer st) (hfind : findProject st id = some p)
    (hrev : p.revision = b) :
    ((patchProject st id ⟨some c, nm, some b⟩ now snapId true).1).snapshots =
      (if shouldSnapshot (latestSnapshotCreatedAt st id) now (b + 1) then
        st.snapshots ++ [⟨snapId, id, b + 1, c, now⟩]
      else st.snapshots) := by
  have hfe := find?_matches_of_rev st id b p hwf hfind hrev
  simp only [patchProject_eq, hfe, maybeSnapshot_ok_of_insertOk]
  simp only [applyPatchValues, latestSnapshotCreatedAt]
  split <;> rfl

/-- C1: for every PATCH update request `{content, name?, baseRevision}` on an
existing document, the update succeeds (status 200) if and only if the
document's current revision equals `baseRevision`; on success the revision
becomes `baseRevision + 1`, the content, the name (when provided) and the
updated-timestamp are replaced, and the full updated record is returned. -/
theorem c1_patch_cas_contract (st : ServerState) (id : String) (c : String)
    (nm : Option String) (b : Int) (now : Nat) (snapId : String) (p : Project)
    (hwf : WFServer st) (hfind : findProject st id = some p) :
    ((∃ r, (patchProject st id ⟨some c, nm, some b⟩ now snapId true).2 =
        .ok (.json 200 r)) ↔ p.revision = b) ∧
    (p.revision = b →
      (patchProject st id ⟨some c, nm, some b⟩ now snapId true).2 =
        .ok (.json 200 (applyPatchValues c (nm.map jsTrim) b now p)) ∧
      findProject (patchProject st id ⟨some c, nm, some b⟩ now snapId true).1
          id = some (applyPatchValues c (nm.map jsTrim) b now p) ∧
      (applyPatchValues c (nm.map jsTrim) b now p).revision = b + 1 ∧
      (applyPatchValues c (nm.map jsTrim) b now p).content = c ∧
      (applyPatchValues c (nm.map jsTrim) b now p).updatedAt = now) := by
  constructor
  · constructor
    · rintro ⟨r, hr⟩
      by_cases hrev : p.revision = b
      · exact hrev
      · rw [patchProject_conflict_eq st id c nm b now snapId true p hwf hfind
          hrev] at hr
        simp at hr
    · intro hrev
      exact ⟨_, (patchProject_success_resp st id c nm b now snapId p hwf hfind
        hrev).1⟩
  · intro hrev
    obtain ⟨h1, h2⟩ := patchProject_success_resp st id c nm b now snapId p hwf
      hfind hrev
    exact ⟨h1, h2, rfl, rfl, rfl⟩

/-- C1 witness: a concrete document at revision 3 PATCHed with
baseRevision 3 succeeds. -/
theorem c1_patch_cas_contract_witness :
    WFServer ⟨[⟨"p1", "n", "typescript", "old", 3, 0, 0⟩], []⟩ ∧
    findProject ⟨[⟨"p1", "n", "typescript", "old", 3, 0, 0⟩], []⟩ "p1" =
      some ⟨"p1", "n", "typescript", "old", 3, 0, 0⟩ ∧
    ((∃ r, (patchProject ⟨[⟨"p1", "n", "typescript", "old", 3, 0, 0⟩], []⟩
        "p1" ⟨some "new", some " name ", some 3⟩ 7 "s1" true).2 =
        .ok (.json 200 r)) ↔
      (⟨"p1", "n", "typescript", "old", 3, 0, 0⟩ : Project).revision = 3) :=
  ⟨by decide, by decide,
    (c1_patch_cas_contract ⟨[⟨"p1", "n", "typescript", "old", 3, 0, 0⟩], []⟩
      "p1" "new" (some " name ") 3 7 "s1"
      ⟨"p1", "n", "typescript", "old", 3, 0, 0⟩ (by decide) (by decide)).1⟩

/-- C2: a PATCH whose baseRevision differs from the current revision returns
409 with the current record and leaves the whole server state unchanged;
and once a write for a given (documentId, baseRevision) pair has succeeded,
no state reachable through any further API requests admits another
successful write for that same pair. -/
theorem c2_conflict_and_cas_exclusivity :
    (∀ (st : ServerState) (id : String) (c : String) (nm : Option String)
      (b : Int) (now : Nat) (snapId : String) (insertOk : Bool) (p : Project),
      WFServer st → findProject st id = some p → p.revision ≠ b →
      patchProject st id ⟨some c, nm, some b⟩ now snapId insertOk =
        (st, .ok (.json 409 p))) ∧
    (∀ (st st' : ServerState) (id : String) (c : String) (nm : Option String)
      (b : Int) (now : Nat) (snapId : String) (insertOk : Bool),
      WFServer st → patchApplies st id b = true →
      ServerReaches (patchProject st id ⟨some c, nm, some b⟩ now snapId
        insertOk).1 st' →
      patchApplies st' id b = false) := by
  constructor
  · exact fun st id c nm b now snapId insertOk p hwf hfind hrev =>
      patchProject_conflict_eq st id c nm b now snapId insertOk p hwf hfind
        hrev
  · intro st st' id c nm b now snapId insertOk hwf happl hreach
    have hnd : (st.projects.map Project.id).Nodup := hwf
    unfold patchApplies at happl
    rw [find?_matches_eq st.projects id b hnd] at happl
    cases hp0 : st.projects.find? (fun q => q.id == id) with
    | none =>
      rw [hp0] at happl
      simp at happl
    | some p =>
      rw [hp0] at happl
      by_cases hrev : p.revision = b
      · have hfind : findProject st id = some p := hp0
        have h1 := patchProject_success_find st id c nm b now snapId insertOk
          p hwf hfind hrev
        have hwf1 : WFServer (patchProject st id ⟨some c, nm, some b⟩ now
            snapId insertOk).1 :=
          wf_step (ServerStep.patch st id ⟨some c, nm, some b⟩ now snapId
            insertOk) hwf
        obtain ⟨p', hp', hle⟩ := findProject_mono_reaches hreach id _ h1
        have hwf' : WFServer st' := wf_reaches hreach hwf1
        have hrevp' : p'.revision ≠ b := by
          have hb1 : (applyPatchValues c (nm.map jsTrim) b now
            p).revision = b + 1 := rfl
          omega
        have hnd' : (st'.projects.map Project.id).Nodup := hwf'
        unfold patchApplies
        rw [find?_matches_eq st'.projects id b hnd']
        unfold findProject at hp'
        rw [hp']
        simp [hrevp']
      · simp [hrev] at happl

/-- C2 witness: a stale write (baseRevision 0 against revision 2) yields 409
and no state change; and after a successful write with baseRevision 0, the
pair (id, 0) can never apply again. -/
theorem c2_conflict_and_cas_exclusivity_witness :
    (WFServer ⟨[⟨"p1", "n", "typescript", "x", 2, 0, 0⟩], []⟩ ∧
      findProject ⟨[⟨"p1", "n", "typescript", "x", 2, 0, 0⟩], []⟩ "p1" =
        some ⟨"p1", "n", "typescript", "x", 2, 0, 0⟩ ∧
      patchProject ⟨[⟨"p1", "n", "typescript", "x", 2, 0, 0⟩], []⟩ "p1"
          ⟨some "y", none, some 0⟩ 9 "s1" true =
        (⟨[⟨"p1", "n", "typescript", "x", 2, 0, 0⟩], []⟩,
          .ok (.json 409 ⟨"p1", "n", "typescript", "x", 2, 0, 0⟩))) ∧
    patchApplies (patchProject ⟨[⟨"p2", "n", "typescript", "x", 0, 0, 0⟩], []⟩
        "p2" ⟨some "y", none, some 0⟩ 9 "s1" true).1 "p2" 0 = false :=
  ⟨⟨by decide, by decide,
    c2_conflict_and_cas_exclusivity.1
      ⟨[⟨"p1", "n", "typescript", "x", 2, 0, 0⟩], []⟩ "p1" "y" none 0 9 "s1"
      true ⟨"p1", "n", "typescript", "x", 2, 0, 0⟩ (by decide) (by decide)
      (by decide)⟩,
    c2_conflict_and_cas_exclusivity.2
      ⟨[⟨"p2", "n", "typescript", "x", 0, 0, 0⟩], []⟩ _ "p2" "y" none 0 9 "s1"
      true (by decide) (by decide) (ServerReaches.refl _)⟩

/-- C4: after a successful write, a snapshot of the content just written is
appended if and only if there is no prior snapshot, or at least 30000 ms
passed since the latest snapshot, or the new revision is a multiple of 10;
in particular a revision that is a multiple of 10 always snapshots. -/
theorem c4_snapshot_policy (st : ServerState) (id : String) (c : String)
    (nm : Option String) (b : Int) (now : Nat) (snapId : String) (p : Project)
    (hwf : WFServer st) (hfind : findProject st id = some p)
    (hrev : p.revision = b) :
    (((patchProject st id ⟨some c, nm, some b⟩ now snapId true).1).snapshots =
        st.snapshots ++ [⟨snapId, id, b + 1, c, now⟩] ↔
      (latestSnapshotCreatedAt st id = none ∨
        (now : Int) - (((latestSnapshotCreatedAt st id).getD 0 : Nat) : Int) ≥
          30000 ∨
        (10 : Int) ∣ (b + 1))) ∧
    ((10 : Int) ∣ (b + 1) →
      ((patchProject st id ⟨some c, nm, some b⟩ now snapId true).1).snapshots =
        st.snapshots ++ [⟨snapId, id, b + 1, c, now⟩]) := by
  have hsnap := patchProject_success_snapshots st id c nm b now snapId p hwf
    hfind hrev
  have hiff := shouldSnapshot_iff (latestSnapshotCreatedAt st id) now (b + 1)
  rw [hsnap]
  by_cases hC : shouldSnapshot (latestSnapshotCreatedAt st id) now (b + 1) =
      true
  · rw [if_pos hC]
    exact ⟨⟨fun _ => hiff.mp hC, fun _ => rfl⟩, fun _ => rfl⟩
  · rw [if_neg hC]
    have hnD := fun hD => hC (hiff.mpr hD)
    constructor
    · constructor
      · intro heq
        exfalso
        have hlen := congrArg List.length heq
        simp at hlen
      · intro hD
        exact absurd hD hnD
    · intro hdvd
      exact absurd (Or.inr (Or.inr hdvd)) hnD

/-- C4 witness: a write taking revision 9 to 10 snapshots even though only
1 ms passed since the last snapshot. -/
theorem c4_snapshot_policy_witness :
    WFServer ⟨[⟨"p1", "n", "typescript", "x", 9, 0, 0⟩],
      [⟨"s0", "p1", 9, "x", 100⟩]⟩ ∧
    findProject ⟨[⟨"p1", "n", "typescript", "x", 9, 0, 0⟩],
      [⟨"s0", "p1", 9, "x", 100⟩]⟩ "p1" =
      some ⟨"p1", "n", "typescript", "x", 9, 0, 0⟩ ∧
    (10 : Int) ∣ (9 + 1) ∧
    ((patchProject ⟨[⟨"p1", "n", "typescript", "x", 9, 0, 0⟩],
        [⟨"s0", "p1", 9, "x", 100⟩]⟩ "p1" ⟨some "y", none, some 9⟩ 101 "s1"
        true).1).snapshots =
      [⟨"s0", "p1", 9, "x", 100⟩] ++ [⟨"s1", "p1", 9 + 1, "y", 101⟩] :=
  ⟨by decide, by decide, by decide,
    (c4_snapshot_policy ⟨[⟨"p1", "n", "typescript", "x", 9, 0, 0⟩],
        [⟨"s0", "p1", 9, "x", 100⟩]⟩ "p1" "y" none 9 101 "s1"
        ⟨"p1", "n", "typescript", "x", 9, 0, 0⟩ (by decide) (by decide)
        (by decide)).2 (by decide)⟩

/-- C10: on a successful PATCH with no name field, every field other than
content, revision and the updated timestamp — name, language, id, created
timestamp — is unchanged; and a provided name is stored trimmed (an
all-whitespace name becomes the empty string) while the request still
succeeds with 200. -/
theorem c10_name_frame_and_trim (st : ServerState) (id : String) (c : String)
    (nm : Option String) (b : Int) (now : Nat) (snapId : String) (p : Project)
    (hwf : WFServer st) (hfind : findProject st id = some p)
    (hrev : p.revision = b) :
    (nm = none →
      (applyPatchValues c (nm.map jsTrim) b now p).name = p.name ∧
      (applyPatchValues c (nm.map jsTrim) b now p).language =
        p.language ∧
      (applyPatchValues c (nm.map jsTrim) b now p).id = p.id ∧
      (applyPatchValues c (nm.map jsTrim) b now p).createdAt =
        p.createdAt ∧
      (patchProject st id ⟨some c, nm, some b⟩ now snapId true).2 =
        .ok (.json 200 (applyPatchValues c (nm.map jsTrim) b now p))) ∧
    (∀ n, nm = some n →
      (applyPatchValues c (nm.map jsTrim) b now p).name = jsTrim n ∧
      (patchProject st id ⟨some c, nm, some b⟩ now snapId true).2 =
        .ok (.json 200 (applyPatchValues c (nm.map jsTrim) b now p))) := by
  have hresp := (patchProject_success_resp st id c nm b now snapId p hwf hfind
    hrev).1
  constructor
  · intro hn
    subst hn
    exact ⟨rfl, rfl, rfl, rfl, hresp⟩
  · intro n hn
    subst hn
    exact ⟨rfl, hresp⟩

/-- C10 witness: an all-whitespace name is stored as the empty string and
the PATCH still returns 200. -/
theorem c10_name_frame_and_trim_witness :
    WFServer ⟨[⟨"p1", "n", "typescript", "x", 0, 0, 0⟩], []⟩ ∧
    findProject ⟨[⟨"p1", "n", "typescript", "x", 0, 0, 0⟩], []⟩ "p1" =
      some ⟨"p1", "n", "typescript", "x", 0, 0, 0⟩ ∧
    (applyPatchValues "y" ((some "   ").map jsTrim) 0 9
      ⟨"p1", "n", "typescript", "x", 0, 0, 0⟩).name = jsTrim "   " ∧
    jsTrim "   " = "" :=
  ⟨by decide, by decide,
    ((c10_name_frame_and_trim ⟨[⟨"p1", "n", "typescript", "x", 0, 0, 0⟩], []⟩
      "p1" "y" (some "   ") 0 9 "s1" ⟨"p1", "n", "typescript", "x", 0, 0, 0⟩
      (by decide) (by decide) (by decide)).2 "   " rfl).1,
    by decide⟩

/-- C8 counterexample: creating a document with an empty request body yields
revision 0 and status 201, but the default name is "Untitled Project" and
the default content is the placeholder comment — not empty name/content as
the claim states. -/
theorem c8_counterexample :
    (createProject ⟨[], []⟩ ⟨none⟩ "d1" 0).2 =
      .json 201 ⟨"d1", "Untitled Project", "typescript",
        "// Start typing in Codenote\n", 0, 0, 0⟩ ∧
    ¬ ("Untitled Project" = "" ∧ "// Start typing in Codenote\n" = "") :=
  ⟨by decide, by decide⟩

/-- C8 amended: creation assigns the supplied fresh identifier (not present
before, present afterwards), revision 0, the default language, the non-empty
default content placeholder, and the name "Untitled Project" unless a
non-empty trimmed name was sent; the new record is returned with 201. -/
theorem c8_create_contract (st : ServerState) (body : CreateBody)
    (newId : String) (now : Nat)
    (hfresh : newId ∉ st.projects.map Project.id) :
    ∃ inserted : Project,
      createProject st body newId now =
        ({ st with projects := st.projects ++ [inserted] },
          .json 201 inserted) ∧
      inserted.id = newId ∧
      inserted.revision = 0 ∧
      inserted.language = DEFAULT_LANGUAGE ∧
      inserted.content = DEFAULT_CONTENT ∧
      inserted.createdAt = now ∧
      inserted.updatedAt = now ∧
      inserted.name = (match body.name with
        | some n => if jsTrim n ≠ "" then jsTrim n else "Untitled Project"
        | none => "Untitled Project") ∧
      findProject st newId = none ∧
      findProject { st with projects := st.projects ++ [inserted] } newId =
        some inserted := by
  refine ⟨⟨newId, (match body.name with
      | some n => if jsTrim n ≠ "" then jsTrim n else "Untitled Project"
      | none => "Untitled Project"), DEFAULT_LANGUAGE, DEFAULT_CONTENT, 0,
      now, now⟩, rfl, rfl, rfl, rfl, rfl, rfl, rfl, rfl, ?_, ?_⟩
  · unfold findProject
    refine List.find?_eq_none.mpr ?_
    intro x hx hbeq
    exact hfresh (List.mem_map.mpr ⟨x, hx, by simpa using hbeq⟩)
  · unfold findProject
    have hnone : st.projects.find? (fun p => p.id == newId) = none := by
      refine List.find?_eq_none.mpr ?_
      intro x hx hbeq
      exact hfresh (List.mem_map.mpr ⟨x, hx, by simpa using hbeq⟩)
    simp only [List.find?_append, hnone]
    simp

/-- C8 witness: creating with an empty body in an empty store. -/
theorem c8_create_contract_witness :
    ("d2" ∉ (⟨[], []⟩ : ServerState).projects.map Project.id) ∧
    ∃ inserted : Project,
      createProject ⟨[], []⟩ ⟨none⟩ "d2" 5 =
        ({ (⟨[], []⟩ : ServerState) with
            projects := (⟨[], []⟩ : ServerState).projects ++ [inserted] },
          .json 201 inserted) ∧
      inserted.id = "d2" ∧
      inserted.revision = 0 ∧
      inserted.language = DEFAULT_LANGUAGE ∧
      inserted.content = DEFAULT_CONTENT ∧
      inserted.createdAt = 5 ∧
      inserted.updatedAt = 5 ∧
      inserted.name = (match (⟨none⟩ : CreateBody).name with
        | some n => if jsTrim n ≠ "" then jsTrim n else "Untitled Project"
        | none => "Untitled Project") ∧
      findProject ⟨[], []⟩ "d2" = none ∧
      findProject { (⟨[], []⟩ : ServerState) with
          projects := (⟨[], []⟩ : ServerState).projects ++ [inserted] } "d2" =
        some inserted :=
  ⟨by decide, c8_create_contract ⟨[], []⟩ ⟨none⟩ "d2" 5 (by decide)⟩

/-- C9 counterexample: with one document at revision 0 and no prior
snapshot, a valid PATCH whose snapshot insert fails leaves the update
persisted (revision 1, new content) but the served response is a 500, not
the claimed 200 with the updated record. -/
theorem c9_counterexample :
    servePatch ⟨[⟨"p1", "n", "typescript", "old", 0, 0, 0⟩], []⟩ "p1"
        ⟨some "new", none, some 0⟩ 5 "s1" false =
      (⟨[⟨"p1", "n", "typescript", "new", 1, 0, 5⟩], []⟩,
        .text 500 "Internal Server Error") ∧
    (servePatch ⟨[⟨"p1", "n", "typescript", "old", 0, 0, 0⟩], []⟩ "p1"
        ⟨some "new", none, some 0⟩ 5 "s1" false).2 ≠
      .json 200 ⟨"p1", "n", "typescript", "new", 1, 0, 5⟩ :=
  ⟨by decide, by decide⟩

/-- C9 amended: a snapshot-insert failure after a successful write never
rolls the write back — the updated record stays persisted and no snapshot
row is added — but the caller receives a 500 Internal Server Error response
instead of the 200 with the updated record. -/
theorem c9_snapshot_failure_no_rollback (st : ServerState) (id : String)
    (c : String) (nm : Option String) (b : Int) (now : Nat) (snapId : String)
    (p : Project) (hwf : WFServer st) (hfind : findProject st id = some p)
    (hrev : p.revision = b)
    (hshould : shouldSnapshot (latestSnapshotCreatedAt st id) now (b + 1) =
      true) :
    findProject (servePatch st id ⟨some c, nm, some b⟩ now snapId false).1
        id = some (applyPatchValues c (nm.map jsTrim) b now p) ∧
    ((servePatch st id ⟨some c, nm, some b⟩ now snapId false).1).snapshots =
      st.snapshots ∧
    (servePatch st id ⟨some c, nm, some b⟩ now snapId false).2 =
      .text 500 "Internal Server Error" := by
  have hfe := find?_matches_of_rev st id b p hwf hfind hrev
  have hm := patchMatches_of_found st id b p hfind hrev
  have herr : maybeSnapshot { st with projects := st.projects.map (fun q =>
        if patchMatches id b q then applyPatchValues c (nm.map jsTrim) b now q
        else q) } id
      (applyPatchValues c (nm.map jsTrim) b now p).revision
      (applyPatchValues c (nm.map jsTrim) b now p).content
      now snapId false = .error () := by
    have hshould' : shouldSnapshot
        (latestSnapshotCreatedAt { st with
          projects := st.projects.map (fun q =>
            if patchMatches id b q then
              applyPatchValues c (nm.map jsTrim) b now q
            else q) } id) now
        (applyPatchValues c (nm.map jsTrim) b now p).revision = true :=
      hshould
    simp [maybeSnapshot, hshould']
  have hserve : servePatch st id ⟨some c, nm, some b⟩ now snapId false =
      ({ st with projects := st.projects.map (fun q =>
          if patchMatches id b q then
            applyPatchValues c (nm.map jsTrim) b now q
          else q) }, .text 500 "Internal Server Error") := by
    unfold servePatch
    simp only [patchProject_eq, hfe, herr]
  refine ⟨?_, by rw [hserve], by rw [hserve]⟩
  rw [hserve]
  unfold findProject
  rw [findProject_patchTable]
  unfold findProject at hfind
  rw [hfind]
  simp [hm]

/-- C9 witness: the amended statement at the concrete counterexample
state. -/
theorem c9_snapshot_failure_no_rollback_witness :
    WFServer ⟨[⟨"p1", "n", "typescript", "old", 0, 0, 0⟩], []⟩ ∧
    findProject ⟨[⟨"p1", "n", "typescript", "old", 0, 0, 0⟩], []⟩ "p1" =
      some ⟨"p1", "n", "typescript", "old", 0, 0, 0⟩ ∧
    shouldSnapshot (latestSnapshotCreatedAt
      ⟨[⟨"p1", "n", "typescript", "old", 0, 0, 0⟩], []⟩ "p1") 5 (0 + 1) =
      true ∧
    (servePatch ⟨[⟨"p1", "n", "typescript", "old", 0, 0, 0⟩], []⟩ "p1"
        ⟨some "new", none, some 0⟩ 5 "s1" false).2 =
      .text 500 "Internal Server Error" :=
  ⟨by decide, by decide, by decide,
    (c9_snapshot_failure_no_rollback
      ⟨[⟨"p1", "n", "typescript", "old", 0, 0, 0⟩], []⟩ "p1" "new" none 0 5
      "s1" ⟨"p1", "n", "typescript", "old", 0, 0, 0⟩ (by decide) (by decide)
      (by decide) (by decide)).2.2⟩

theorem mutate_saving (s : SchedulerState) (v n : String) (now : Nat) :
    ((mutate s v n now).1).saving = s.saving := by
  unfold mutate
  split
  · rfl
  · split
    · rfl
    · split <;> rfl

theorem flushStart_cases (s : SchedulerState) :
    flushStart s = (s, none) ∨
    (s.saving = false ∧ flushStart s =
      ({ s with saving := true, pendingSave := false, saveState := .saving },
        some ⟨s.latestValue, s.latestName, s.baseRevision⟩)) := by
  unfold flushStart
  split
  · exact Or.inl rfl
  · split
    · exact Or.inl rfl
    · split
      · exact Or.inl rfl
      · rename_i h1 h2 h3
        right
        refine ⟨?_, rfl⟩
        simpa using h2

theorem flushComplete_saving (s : SchedulerState) (o : FlushOutcome)
    (now : Nat) : ((flushComplete s o now).1).saving = false := by
  unfold flushComplete
  cases o with
  | success updated => split <;> rfl
  | conflict latest => rfl
  | failure => rfl

theorem handleRestore_saving (s : SchedulerState) :
    (handleRestore s).saving = s.saving := by
  unfold handleRestore
  cases s.restoreDraft <;> rfl

theorem handleReloadFromServer_saving (s : SchedulerState) :
    (handleReloadFromServer s).saving = s.saving := by
  unfold handleReloadFromServer
  cases s.conflictProject <;> rfl

/-- Flush-in-flight invariant: the number of outstanding flush requests is 1
exactly while `saving` is set, 0 otherwise. -/
def FlightInv (c : ClientConfig) : Prop :=
  c.inFlight = (if c.sched.saving then 1 else 0)

theorem handleOverwriteServer_cases (s : SchedulerState) :
    handleOverwriteServer s = (s, none) ∨
    (∃ s1 : SchedulerState, s1.saving = s.saving ∧
      handleOverwriteServer s = flushStart s1) := by
  unfold handleOverwriteServer
  cases s.conflictProject with
  | none => exact Or.inl rfl
  | some cp =>
    right
    refine ⟨{ s with
        conflictRef := none,
        baseRevision := cp.revision,
        conflictProject := none,
        saveState := .idle }, rfl, rfl⟩

theorem flightInv_step {c c' : ClientConfig} (h : ClientStep c c')
    (hinv : FlightInv c) : FlightInv c' := by
  unfold FlightInv at *
  cases h with
  | mutate v n now =>
    simp only [mutate_saving]
    exact hinv
  | tryFlush =>
    rcases flushStart_cases c.sched with heq | ⟨hsav, heq⟩
    · simp [heq, hinv]
    · simp [heq, hsav] at hinv ⊢
      omega
  | complete o now hsaving =>
    simp only [flushComplete_saving]
    rw [hsaving] at hinv
    simp at hinv
    simp [hinv]
  | restore =>
    simp only [handleRestore_saving]
    exact hinv
  | reload =>
    simp only [handleReloadFromServer_saving]
    exact hinv
  | overwrite =>
    rcases handleOverwriteServer_cases c.sched with heq | ⟨s1, hsav1, heq⟩
    · simp [heq]
      exact hinv
    · rcases flushStart_cases s1 with h2 | ⟨hsav, h2⟩
      · rw [heq, h2]
        simp only
        rw [hsav1]
        simpa using hinv
      · rw [heq, h2]
        rw [hsav1] at hsav
        rw [hsav] at hinv
        simp at hinv
        simp [hinv]

theorem flightInv_reaches {c c' : ClientConfig} (h : ClientReaches c c')
    (hinv : FlightInv c) : FlightInv c' := by
  induction h with
  | refl => exact hinv
  | tail _ hstep ih => exact flightInv_step hstep ih

/-- C3: in the conflict state holding the server's latest record, Reload
adopts the server record's content/name/revision as buffer and all saved
baselines, deletes the local draft and returns to idle; Overwrite keeps the
local content/name, re-bases onto the server revision, clears the conflict
and immediately re-issues the flush request with the local content under
the new base revision. -/
theorem c3_conflict_resolutions (s : SchedulerState) (cp : Project)
    (hconf : s.conflictProject = some cp) :
    handleReloadFromServer s =
      { s with
        conflictRef := none,
        baseRevision := cp.revision,
        lastSaved := cp.content,
        lastSavedName := cp.name,
        latestValue := cp.content,
        latestName := cp.name,
        value := cp.content,
        name := cp.name,
        conflictProject := none,
        saveState := .idle,
        draftStore := none } ∧
    (s.saving = false →
      ¬ (s.latestValue = s.lastSaved ∧ s.latestName = s.lastSavedName) →
      handleOverwriteServer s =
        ({ s with
          conflictRef := none,
          baseRevision := cp.revision,
          conflictProject := none,
          saveState := .saving,
          saving := true,
          pendingSave := false },
          some ⟨s.latestValue, s.latestName, cp.revision⟩)) := by
  constructor
  · unfold handleReloadFromServer
    rw [hconf]
  · intro hsav hne
    have hb : (s.latestValue == s.lastSaved && s.latestName ==
        s.lastSavedName) = false := by
      by_cases h1 : s.latestValue = s.lastSaved
      · by_cases h2 : s.latestName = s.lastSavedName
        · exact absurd ⟨h1, h2⟩ hne
        · simp [h1, h2]
      · simp [h1]
    unfold handleOverwriteServer
    rw [hconf]
    unfold flushStart
    simp [hb, hsav]

/-- C3 witness: a conflicted session with local edits resolves by
Overwrite into an immediate flush at the server's revision. -/
theorem c3_conflict_resolutions_witness :
    ((⟨"local", "ln", "local", "ln", 1, "base", "bn", "p1", false, false,
        some ⟨"p1", "sn", "typescript", "srv", 4, 0, 9⟩,
        some ⟨"p1", "sn", "typescript", "srv", 4, 0, 9⟩, none, .conflict,
        none⟩ : SchedulerState).conflictProject =
      some ⟨"p1", "sn", "typescript", "srv", 4, 0, 9⟩) ∧
    handleReloadFromServer
        ⟨"local", "ln", "local", "ln", 1, "base", "bn", "p1", false, false,
          some ⟨"p1", "sn", "typescript", "srv", 4, 0, 9⟩,
          some ⟨"p1", "sn", "typescript", "srv", 4, 0, 9⟩, none, .conflict,
          none⟩ =
      ⟨"srv", "sn", "srv", "sn", 4, "srv", "sn", "p1", false, false, none,
        none, none, .idle, none⟩ ∧
    handleOverwriteServer
        ⟨"local", "ln", "local", "ln", 1, "base", "bn", "p1", false, false,
          some ⟨"p1", "sn", "typescript", "srv", 4, 0, 9⟩,
          some ⟨"p1", "sn", "typescript", "srv", 4, 0, 9⟩, none, .conflict,
          none⟩ =
      (⟨"local", "ln", "local", "ln", 4, "base", "bn", "p1", true, false,
        none, none, none, .saving, none⟩,
        some ⟨"local", "ln", 4⟩) :=
  ⟨rfl,
    (c3_conflict_resolutions
      ⟨"local", "ln", "local", "ln", 1, "base", "bn", "p1", false, false,
        some ⟨"p1", "sn", "typescript", "srv", 4, 0, 9⟩,
        some ⟨"p1", "sn", "typescript", "srv", 4, 0, 9⟩, none, .conflict,
        none⟩ ⟨"p1", "sn", "typescript", "srv", 4, 0, 9⟩ rfl).1,
    (c3_conflict_resolutions
      ⟨"local", "ln", "local", "ln", 1, "base", "bn", "p1", false, false,
        some ⟨"p1", "sn", "typescript", "srv", 4, 0, 9⟩,
        some ⟨"p1", "sn", "typescript", "srv", 4, 0, 9⟩, none, .conflict,
        none⟩ ⟨"p1", "sn", "typescript", "srv", 4, 0, 9⟩ rfl).2 rfl
      (by decide)⟩

/-- C5 counterexample: with the in-memory content equal to the last-saved
content but the name changed, the flush does issue a server write, so
content equality alone does not suppress the request. -/
theorem c5_counterexample :
    (flushStart ⟨"a", "x", "a", "x", 0, "a", "y", "p1", false, false, none,
        none, none, .idle, none⟩).2 = some ⟨"a", "x", 0⟩ ∧
    (some (⟨"a", "x", 0⟩ : FlushRequest) ≠ none) :=
  ⟨by decide, by decide⟩

/-- C5 amended: when the in-memory content equals the last-saved content AND
the in-memory name equals the last-saved name, the flush issues no server
write and leaves the scheduler state unchanged. -/
theorem c5_noop_flush (s : SchedulerState) (hv : s.latestValue = s.lastSaved)
    (hn : s.latestName = s.lastSavedName) :
    flushStart s = (s, none) := by
  unfold flushStart
  by_cases hc : s.conflictRef.isSome
  · simp [hc]
  · by_cases hs : s.saving
    · simp [hc, hs]
    · simp [hc, hs, hv, hn]

/-- C5 witness: a fully saved-up state flushes to nothing. -/
theorem c5_noop_flush_witness :
    ((⟨"a", "x", "a", "x", 0, "a", "x", "p1", false, false, none, none, none,
        .idle, none⟩ : SchedulerState).latestValue = "a") ∧
    flushStart ⟨"a", "x", "a", "x", 0, "a", "x", "p1", false, false, none,
        none, none, .idle, none⟩ =
      (⟨"a", "x", "a", "x", 0, "a", "x", "p1", false, false, none, none,
        none, .idle, none⟩, none) :=
  ⟨rfl,
    c5_noop_flush ⟨"a", "x", "a", "x", 0, "a", "x", "p1", false, false, none,
      none, none, .idle, none⟩ rfl rfl⟩

/-- C6: a flush is a no-op in the conflict state or while one is in flight;
a real buffer mutation during an in-flight flush only records the new
latest value and draft and sets the pending flag without scheduling; the
pending flag is consumed at flush completion — one follow-up save on
success or error exactly when it was set and no conflict was recorded,
none on conflict — and along every event trace from a freshly loaded
document at most one flush is in flight. -/
theorem c6_single_flight_discipline :
    (∀ s : SchedulerState, s.conflictRef.isSome = true ∨ s.saving = true →
      flushStart s = (s, none)) ∧
    (∀ (s : SchedulerState) (v n : String) (now : Nat),
      s.saving = true → s.conflictRef = none →
      ¬ (v = s.lastSaved ∧ n = s.lastSavedName) →
      mutate s v n now =
        ({ s with
          value := v,
          name := n,
          latestValue := v,
          latestName := n,
          draftStore := some ⟨s.projectId, v, n, now, s.baseRevision⟩,
          pendingSave := true }, false)) ∧
    (∀ (s : SchedulerState) (updated : Project) (now : Nat),
      (flushComplete s (.success updated) now).2 =
        (s.pendingSave && s.conflictRef.isNone)) ∧
    (∀ (s : SchedulerState) (now : Nat),
      (flushComplete s .failure now).2 =
        (s.pendingSave && s.conflictRef.isNone)) ∧
    (∀ (s : SchedulerState) (latest : Project) (now : Nat),
      (flushComplete s (.conflict latest) now).2 = false) ∧
    (∀ (p : Project) (draft : Option DraftRecord) (c' : ClientConfig),
      ClientReaches ⟨initScheduler p draft, 0⟩ c' → c'.inFlight ≤ 1) := by
  refine ⟨?_, ?_, ?_, ?_, ?_, ?_⟩
  · intro s h
    rcases h with h | h
    · simp [flushStart, h]
    · by_cases hc : s.conflictRef.isSome <;> simp [flushStart, hc, h]
  · intro s v n now hsav hconf hne
    have hb : (v == s.lastSaved && n == s.lastSavedName) = false := by
      by_cases h1 : v = s.lastSaved
      · by_cases h2 : n = s.lastSavedName
        · exact absurd ⟨h1, h2⟩ hne
        · simp [h1, h2]
      · simp [h1]
    unfold mutate
    simp [hb, hconf, hsav]
  · intro s updated now
    simp only [flushComplete]
    split <;> rfl
  · intro s now
    rfl
  · intro s latest now
    simp [flushComplete]
  · intro p draft c' hreach
    have hinv : FlightInv c' :=
      flightInv_reaches hreach (by unfold FlightInv initScheduler; simp)
    unfold FlightInv at hinv
    rw [hinv]
    split <;> omega

/-- C6 witness: a flush attempted while one is in flight is a no-op, and a
completion in the same situation with the pending flag set schedules one
follow-up. -/
theorem c6_single_flight_discipline_witness :
    ((⟨"a", "x", "b", "x", 0, "a", "x", "p1", true, false, none, none, none,
        .saving, none⟩ : SchedulerState).saving = true) ∧
    flushStart ⟨"a", "x", "b", "x", 0, "a", "x", "p1", true, false, none,
        none, none, .saving, none⟩ =
      (⟨"a", "x", "b", "x", 0, "a", "x", "p1", true, false, none, none, none,
        .saving, none⟩, none) ∧
    (flushComplete ⟨"a", "x", "b", "x", 0, "a", "x", "p1", true, true, none,
        none, none, .saving, none⟩
      (.success ⟨"p1", "x", "typescript", "b", 1, 0, 5⟩) 6).2 = true :=
  ⟨rfl,
    c6_single_flight_discipline.1
      ⟨"a", "x", "b", "x", 0, "a", "x", "p1", true, false, none, none, none,
        .saving, none⟩ (Or.inr rfl),
    by
      rw [c6_single_flight_discipline.2.2.1
        ⟨"a", "x", "b", "x", 0, "a", "x", "p1", true, true, none, none, none,
          .saving, none⟩ ⟨"p1", "x", "typescript", "b", 1, 0, 5⟩ 6]
      decide⟩

/-- C7 counterexample: restoring a draft updates the buffer but leaves the
saved baselines (last-saved content and baseRevision) at the server
record's values, contradicting the claim that all scheduler baselines adopt
the draft's values. -/
theorem c7_counterexample :
    (handleRestore ⟨"srv", "sn", "srv", "sn", 2, "srv", "sn", "p1", false,
        false, none, none, some ⟨"p1", "draft", "dn", 50, 5⟩, .idle,
        some ⟨"p1", "draft", "dn", 50, 5⟩⟩).value = "draft" ∧
    (handleRestore ⟨"srv", "sn", "srv", "sn", 2, "srv", "sn", "p1", false,
        false, none, none, some ⟨"p1", "draft", "dn", 50, 5⟩, .idle,
        some ⟨"p1", "draft", "dn", 50, 5⟩⟩).lastSaved = "srv" ∧
    (handleRestore ⟨"srv", "sn", "srv", "sn", 2, "srv", "sn", "p1", false,
        false, none, none, some ⟨"p1", "draft", "dn", 50, 5⟩, .idle,
        some ⟨"p1", "draft", "dn", 50, 5⟩⟩).baseRevision = 2 ∧
    ¬ ((handleRestore ⟨"srv", "sn", "srv", "sn", 2, "srv", "sn", "p1", false,
          false, none, none, some ⟨"p1", "draft", "dn", 50, 5⟩, .idle,
          some ⟨"p1", "draft", "dn", 50, 5⟩⟩).lastSaved = "draft" ∧
        (handleRestore ⟨"srv", "sn", "srv", "sn", 2, "srv", "sn", "p1", false,
          false, none, none, some ⟨"p1", "draft", "dn", 50, 5⟩, .idle,
          some ⟨"p1", "draft", "dn", 50, 5⟩⟩).baseRevision = 5) :=
  ⟨by decide, by decide, by decide, by decide⟩

/-- C7 amended: when the user restores an offered local draft, the in-memory
buffer (value/name and the latest refs) adopts the draft's content and name
and the offer is cleared, while the scheduler baselines — last-saved
content, last-saved name and baseRevision — keep the values loaded from the
server record; autosave scheduling proceeds normally from that state. -/
theorem c7_restore_buffer_only (s : SchedulerState) (d : DraftRecord)
    (hd : s.restoreDraft = some d) :
    handleRestore s =
      { s with
        value := d.content,
        latestValue := d.content,
        name := d.name,
        latestName := d.name,
        restoreDraft := none } ∧
    (handleRestore s).lastSaved = s.lastSaved ∧
    (handleRestore s).lastSavedName = s.lastSavedName ∧
    (handleRestore s).baseRevision = s.baseRevision := by
  have h1 : handleRestore s =
      { s with
        value := d.content,
        latestValue := d.content,
        name := d.name,
        latestName := d.name,
        restoreDraft := none } := by
    unfold handleRestore
    rw [hd]
  exact ⟨h1, by rw [h1], by rw [h1], by rw [h1]⟩

/-- C7 witness: the amended statement at the counterexample state. -/
theorem c7_restore_buffer_only_witness :
    ((⟨"srv", "sn", "srv", "sn", 2, "srv", "sn", "p1", false, false, none,
        none, some ⟨"p1", "draft", "dn", 50, 5⟩, .idle,
        some ⟨"p1", "draft", "dn", 50, 5⟩⟩ : SchedulerState).restoreDraft =
      some ⟨"p1", "draft", "dn", 50, 5⟩) ∧
    (handleRestore ⟨"srv", "sn", "srv", "sn", 2, "srv", "sn", "p1", false,
        false, none, none, some ⟨"p1", "draft", "dn", 50, 5⟩, .idle,
        some ⟨"p1", "draft", "dn", 50, 5⟩⟩).lastSaved =
      (⟨"srv", "sn", "srv", "sn", 2, "srv", "sn", "p1", false, false, none,
        none, some ⟨"p1", "draft", "dn", 50, 5⟩, .idle,
        some ⟨"p1", "draft", "dn", 50, 5⟩⟩ : SchedulerState).lastSaved :=
  ⟨rfl,
    (c7_restore_buffer_only
      ⟨"srv", "sn", "srv", "sn", 2, "srv", "sn", "p1", false, false, none,
        none, some ⟨"p1", "draft", "dn", 50, 5⟩, .idle,
        some ⟨"p1", "draft", "dn", 50, 5⟩⟩ ⟨"p1", "draft", "dn", 50, 5⟩
      rfl).2.1⟩

end Codenote
